import Mathlib

/-!
Shallow embedding of tiny-pop3-server.py: a small development POP3 server
built on the twisted framework, with a Tk GUI.

The embedding follows the source file directly.  Messages are stored in a
Python list; the mailbox operations (listMessages, getMessage, getUidl,
deleteMessage, undeleteMessages, sync, addMessage) are translated method by
method, including the Python-level behaviours that matter:

* a subscript check of the form `index >= len(self.messages)` only guards
  the upper bound, so negative indices reach Python list subscripting,
  which counts from the end and raises IndexError only below `-len`;
* `hashlib.sha1` in Python 3 raises TypeError when handed a `str`
  (messages in this program are created from `str` content by the GUI);
* `getMessage` evaluates `StringIO.StringIO(...)` although the module does
  `from io import StringIO`, so the attribute lookup raises AttributeError
  before the message is even subscripted;
* the mutating operations fire the `<<mailboxchange>>` Tk virtual event.

The protocol-session layer (state machine, locking, trace) is delegated by
the source to the external twisted library; the parts of it that claims
touch are modelled from the specification and are marked as such in their
doc comments.
-/

namespace TinyPop3

/-- Python exception kinds raised by the embedded code. -/
inductive PyError where
  | valueError
  | indexError
  | typeError
  | attributeError
deriving DecidableEq, Repr

/-- Tk virtual events fired through emit_event: the source defines
EVENT_MAILBOXCHANGE and EVENT_MESSAGELOGCHANGE. -/
inductive Event where
  | mailboxChange
  | messagelogChange
deriving DecidableEq, Repr

/-- Resolution of a Python list subscript of a list of length `len`:
a negative index counts from the end of the list; an index that is still
out of bounds after that adjustment raises IndexError. -/
def pyIndex (len : Nat) (i : Int) : Except PyError Nat :=
  let j : Int := if i < 0 then i + len else i
  if 0 ≤ j ∧ j < (len : Int) then .ok j.toNat else .error .indexError

/-! ### hashlib.sha1

A computable model of SHA-1 over byte lists, used by getUidl.  In Python 3
`hashlib.sha1` raises TypeError when its argument is a `str` rather than
`bytes`; the model keeps both cases apart with `PyData`. -/

/-- Truncation to a 32-bit word. -/
def w32 (n : Nat) : Nat := n % 4294967296

/-- Left rotation of a 32-bit word by `b` places (for `n < 2^32` the two
summands occupy disjoint bit ranges). -/
def rotl (b n : Nat) : Nat := (n * 2 ^ b + n / 2 ^ (32 - b)) % 4294967296

/-- The SHA-1 round constants. -/
def sha1K (i : Nat) : Nat :=
  if i < 20 then 1518500249
  else if i < 40 then 1859775393
  else if i < 60 then 2400959708
  else 3395469782

/-- The SHA-1 round functions (bitwise complement is xor with the all-ones
32-bit word). -/
def sha1F (i b c d : Nat) : Nat :=
  if i < 20 then (b &&& c) ||| ((b ^^^ 4294967295) &&& d)
  else if i < 40 then b ^^^ c ^^^ d
  else if i < 60 then (b &&& c) ||| (b &&& d) ||| (c &&& d)
  else b ^^^ c ^^^ d

/-- Big-endian packing of bytes into 32-bit words, four at a time. -/
def toWords : List Nat → List Nat
  | a :: b :: c :: d :: rest => (a * 16777216 + b * 65536 + c * 256 + d) :: toWords rest
  | _ => []

/-- Message-schedule extension: grow the 16 chunk words to 80. -/
def extendWords (ws : List Nat) : List Nat :=
  (List.range 64).foldl
    (fun acc _ =>
      acc ++ [rotl 1 (acc.getD (acc.length - 3) 0 ^^^ acc.getD (acc.length - 8) 0 ^^^
        acc.getD (acc.length - 14) 0 ^^^ acc.getD (acc.length - 16) 0)])
    ws

/-- One SHA-1 compression step over an 80-word schedule. -/
def sha1Compress (h : Nat × Nat × Nat × Nat × Nat) (ws : List Nat) :
    Nat × Nat × Nat × Nat × Nat :=
  let r := (List.range 80).foldl
    (fun st i =>
      let t := w32 (rotl 5 st.1 + sha1F i st.2.1 st.2.2.1 st.2.2.2.1 + st.2.2.2.2 +
        sha1K i + ws.getD i 0)
      (t, st.1, rotl 30 st.2.1, st.2.2.1, st.2.2.2.1))
    h
  (w32 (h.1 + r.1), w32 (h.2.1 + r.2.1), w32 (h.2.2.1 + r.2.2.1),
    w32 (h.2.2.2.1 + r.2.2.2.1), w32 (h.2.2.2.2 + r.2.2.2.2))

/-- Big-endian bytes of an `n`-byte unsigned value. -/
def beBytes : Nat → Nat → List Nat
  | 0, _ => []
  | n + 1, v => v / 256 ^ n % 256 :: beBytes n v

/-- SHA-1 padding: a 0x80 byte, zeros to 56 mod 64, then the bit length as
an 8-byte big-endian value. -/
def sha1Pad (msg : List Nat) : List Nat :=
  msg ++ [128] ++ List.replicate ((119 - msg.length % 64) % 64) 0 ++
    beBytes 8 (8 * msg.length)

/-- Split a byte list into 64-byte chunks, structurally recursive on a
fuel bound (one unit per chunk suffices since every chunk is nonempty). -/
def chunksAux : Nat → List Nat → List (List Nat)
  | 0, _ => []
  | _ + 1, [] => []
  | fuel + 1, x :: rest => (x :: rest).take 64 :: chunksAux fuel (rest.drop 63)

/-- Split a byte list into 64-byte chunks. -/
def chunks64 (l : List Nat) : List (List Nat) := chunksAux l.length l

/-- The SHA-1 digest (20 bytes) of a byte list. -/
def sha1Bytes (msg : List Nat) : List Nat :=
  let f := (chunks64 (sha1Pad msg)).foldl
    (fun h chunk => sha1Compress h (extendWords (toWords chunk)))
    (1732584193, 4023233417, 2562383102, 271733878, 3285377520)
  beBytes 4 f.1 ++ beBytes 4 f.2.1 ++ beBytes 4 f.2.2.1 ++
    beBytes 4 f.2.2.2.1 ++ beBytes 4 f.2.2.2.2

/-- Lowercase hex character for a value below 16. -/
def hexChar (n : Nat) : Char := "0123456789abcdef".toList.getD n (Char.ofNat 48)

/-- Lowercase hex rendering of a digest, two characters per byte. -/
def hexdigest (digest : List Nat) : String :=
  String.mk (digest.foldr (fun b acc => hexChar (b / 16) :: hexChar (b % 16) :: acc) [])

/-- A Python value passed to hashlib: either text (`str`) or `bytes`. -/
inductive PyData where
  | str (s : String)
  | bytes (b : List Nat)
deriving DecidableEq

/-- Model of Python 3 hashlib.sha1: hashing `bytes` yields the digest;
hashing a `str` raises TypeError (strings must be encoded before hashing). -/
def hashlibSha1 : PyData → Except PyError (List Nat)
  | .str _ => .error .typeError
  | .bytes b => .ok (sha1Bytes b)

/-! ### Message -/

/-- One stored message: class Message of the source, with fields
`__content`, `__label` and `__deleted`.  In this program every message is
created by the GUI from `str` content, so content is text. -/
structure Message where
  content : String
  label : Option String
  deleted : Bool
deriving DecidableEq, Repr

/-- Message construction: deleted starts out False. -/
def Message.new (content : String) (label : Option String) : Message :=
  { content := content, label := label, deleted := false }

/-- Message.delete: set the deleted flag. -/
def Message.delete (m : Message) : Message := { m with deleted := true }

/-- Message.undelete: clear the deleted flag. -/
def Message.undelete (m : Message) : Message := { m with deleted := false }

/-! ### Mailbox -/

/-- The mailbox: an ordered Python list of messages. -/
structure Mailbox where
  messages : List Message
deriving DecidableEq, Repr

deriving instance DecidableEq for Except

/-- Outcome of one mailbox method call: the returned value or raised
exception, the mailbox state afterwards, and the Tk events fired. -/
structure Eff (α : Type) where
  ret : Except PyError α
  mbox : Mailbox
  events : List Event
deriving DecidableEq

/-- The sizes produced by listMessages with no index:
`[len(m.content()) for m in self.messages]` — note that deleted messages
are included. -/
def Mailbox.sizes (mb : Mailbox) : List Nat :=
  mb.messages.map (fun m => m.content.length)

/-- Mailbox.listMessages with index=None: return the size of every stored
message; no state change, no event. -/
def Mailbox.listMessages (mb : Mailbox) : Eff (List Nat) :=
  ⟨.ok mb.sizes, mb, []⟩

/-- Mailbox.listMessages with an index: raise ValueError when
`index >= len(self.messages)`, otherwise subscript the list (Python
semantics: negative indices count from the end) and return the content
length. -/
def Mailbox.listMessagesAt (mb : Mailbox) (index : Int) : Eff Nat :=
  if (mb.messages.length : Int) ≤ index then ⟨.error .valueError, mb, []⟩
  else
    match pyIndex mb.messages.length index with
    | .error e => ⟨.error e, mb, []⟩
    | .ok j =>
      match mb.messages[j]? with
      | some m => ⟨.ok m.content.length, mb, []⟩
      | none => ⟨.error .indexError, mb, []⟩

/-- Mailbox.getMessage: after the upper-bound check the body evaluates
`StringIO.StringIO(...)`; because the module ran `from io import StringIO`,
`StringIO` is the class itself and the attribute lookup `StringIO.StringIO`
raises AttributeError before the argument (the subscript) is evaluated. -/
def Mailbox.getMessage (mb : Mailbox) (index : Int) : Eff String :=
  if (mb.messages.length : Int) ≤ index then ⟨.error .valueError, mb, []⟩
  else ⟨.error .attributeError, mb, []⟩

/-- Mailbox.getUidl: upper-bound check, subscript, then
`hashlib.sha1(content).hexdigest()`.  The content is a `str`, so in
Python 3 the sha1 call raises TypeError on every reachable input. -/
def Mailbox.getUidl (mb : Mailbox) (index : Int) : Eff String :=
  if (mb.messages.length : Int) ≤ index then ⟨.error .valueError, mb, []⟩
  else
    match pyIndex mb.messages.length index with
    | .error e => ⟨.error e, mb, []⟩
    | .ok j =>
      match mb.messages[j]? with
      | some m =>
        match hashlibSha1 (.str m.content) with
        | .ok d => ⟨.ok (hexdigest d), mb, []⟩
        | .error e => ⟨.error e, mb, []⟩
      | none => ⟨.error .indexError, mb, []⟩

/-- Mailbox.deleteMessage: upper-bound check, subscript, set the message's
deleted flag in place, fire the mailbox-change event.  There is no check
of the flag itself: deleting an already-deleted message succeeds again. -/
def Mailbox.deleteMessage (mb : Mailbox) (index : Int) : Eff Unit :=
  if (mb.messages.length : Int) ≤ index then ⟨.error .valueError, mb, []⟩
  else
    match pyIndex mb.messages.length index with
    | .error e => ⟨.error e, mb, []⟩
    | .ok j =>
      match mb.messages[j]? with
      | some m => ⟨.ok (), ⟨mb.messages.set j m.delete⟩, [.mailboxChange]⟩
      | none => ⟨.error .indexError, mb, []⟩

/-- Mailbox.undeleteMessages as written in the source: it takes an index
and clears the deleted flag of that single message only, then fires the
mailbox-change event.  (The IMailbox interface the class declares expects
a zero-argument method that undeletes every message; see the claims about
RSET.) -/
def Mailbox.undeleteMessages (mb : Mailbox) (index : Int) : Eff Unit :=
  if (mb.messages.length : Int) ≤ index then ⟨.error .valueError, mb, []⟩
  else
    match pyIndex mb.messages.length index with
    | .error e => ⟨.error e, mb, []⟩
    | .ok j =>
      match mb.messages[j]? with
      | some m => ⟨.ok (), ⟨mb.messages.set j m.undelete⟩, [.mailboxChange]⟩
      | none => ⟨.error .indexError, mb, []⟩

/-- The accumulator loop of Mailbox.sync: `keep = []`, then append every
message whose deleted flag is clear. -/
def syncKeep : List Message → List Message → List Message
  | keep, [] => keep
  | keep, m :: rest => if m.deleted then syncKeep keep rest else syncKeep (keep ++ [m]) rest

/-- Mailbox.sync: drop every message flagged deleted, keep the rest in
order, fire the mailbox-change event. -/
def Mailbox.sync (mb : Mailbox) : Eff Unit :=
  ⟨.ok (), ⟨syncKeep [] mb.messages⟩, [.mailboxChange]⟩

/-- Mailbox.addMessage: append at the end, fire the mailbox-change event. -/
def Mailbox.addMessage (mb : Mailbox) (m : Message) : Eff Unit :=
  ⟨.ok (), ⟨mb.messages ++ [m]⟩, [.mailboxChange]⟩

/-- Modelled from the spec: `undelete(all)` clears pendingDelete on every
message.  The source has no such operation — its undeleteMessages demands
an index — so this is the behaviour §4.2 of the specification describes,
used as the comparison point for the RSET path. -/
def Mailbox.undeleteAll (mb : Mailbox) : Mailbox :=
  ⟨mb.messages.map Message.undelete⟩

/-! ### Protocol session layer

The source delegates command parsing and dispatch to
twisted.mail.pop3.POP3 and only wraps three methods so that every line in
both directions lands in the `messagelog` list before the base class acts
on it (lineReceived, sendLine, successResponse).  Those wrappers are
translated below from the source; the dispatch they wrap is modelled from
§4.1 of the specification. -/

/-- Session states of §4.1. -/
inductive SessionState where
  | authorization
  | transaction
  | update
  | closed
deriving DecidableEq, Repr

/-- Per-connection protocol state: a session identifier, the state-machine
state and the username staged by USER. -/
structure Engine where
  sid : Nat
  state : SessionState
  pendingUser : Option String
deriving DecidableEq, Repr

/-- The whole observable state of one server with one connection: the
shared mailbox, the application-level mailbox lock (holder identity), the
connection's engine, the trace list `messagelog`, the lines written to the
transport, and the Tk events fired. -/
structure PState where
  mailbox : Mailbox
  lock : Option Nat
  engine : Engine
  log : List String
  wire : List String
  events : List Event
deriving DecidableEq, Repr

/-- Characters stripped by the source's `line.decode().strip("\n\r")`. -/
def isCRLFChar (c : Char) : Bool := c == Char.ofNat 10 || c == Char.ofNat 13

/-- Python `s.strip("\n\r")`: drop the characters of the set from both
ends. -/
def stripCRLF (s : String) : String :=
  String.mk (((s.toList.dropWhile isCRLFChar).reverse.dropWhile isCRLFChar).reverse)

/-- incoming_line: append `"C: " + line` (CR/LF stripped) to messagelog
and fire the message-log-change event; nothing else changes. -/
def incoming_line (st : PState) (line : String) : PState :=
  { st with log := st.log ++ ["C: " ++ stripCRLF line],
            events := st.events ++ [.messagelogChange] }

/-- outgoing_line: append `"S: " + line` (CR/LF stripped) to messagelog
and fire the message-log-change event. -/
def outgoing_line (st : PState) (line : String) : PState :=
  { st with log := st.log ++ ["S: " ++ stripCRLF line],
            events := st.events ++ [.messagelogChange] }

/-- A write of one line to the transport. -/
def transportWrite (st : PState) (line : String) : PState :=
  { st with wire := st.wire ++ [line] }

/-- The overridden sendLine of POP3Server: first record the outgoing line
in the trace, then let the base class transmit it. -/
def sendLine (st : PState) (line : String) : PState :=
  transportWrite (outgoing_line st line) line

/-- Send a sequence of reply lines, each through the sendLine wrapper. -/
def sendLines (st : PState) (ls : List String) : PState :=
  ls.foldl sendLine st

/-- A positive reply line. -/
def okLine (msg : String) : String := "+OK " ++ msg

/-- A negative reply line. -/
def errLine (msg : String) : String := "-ERR " ++ msg

/-- The failure text for a PASS refused because the mailbox lock is held
by another session. -/
def mailboxLockedMsg : String := "mailbox already locked"

/-- Modelled from the spec: AuthChecker.verify is a stateless equality
check against the one configured username/password pair. -/
def verify (creds : String × String) (u p : String) : Bool :=
  u == creds.1 && p == creds.2

/-- Lock acquisition failure kind of §7. -/
inductive LockError where
  | mailboxLocked
deriving DecidableEq, Repr

/-- Modelled from the spec: acquireLock(sessionId) is exclusive and fails
if the lock is already held by a different session. -/
def acquireLock (lock : Option Nat) (sid : Nat) : Except LockError (Option Nat) :=
  match lock with
  | none => .ok (some sid)
  | some h => if h = sid then .ok (some h) else .error .mailboxLocked

/-- Modelled from the spec: releaseLock(sessionId) clears the lock when
this session holds it and leaves it alone otherwise. -/
def releaseLock (lock : Option Nat) (sid : Nat) : Option Nat :=
  if lock == some sid then none else lock

/-- Modelled from the spec (§4.1): handling of PASS in AUTHORIZATION.
PASS is valid only right after USER; the credential is checked, then the
mailbox lock is acquired; when the lock is held by another session the
reply is a failure and the session stays in AUTHORIZATION with nothing
else changed. -/
def handlePass (creds : String × String) (st : PState) (pw : String) :
    PState × List String :=
  match st.engine.pendingUser with
  | none => (st, [errLine "PASS before USER"])
  | some u =>
    if verify creds u pw then
      match acquireLock st.lock st.engine.sid with
      | .ok l' =>
        ({ st with lock := l',
                   engine := { st.engine with state := .transaction } },
          [okLine "logged in"])
      | .error .mailboxLocked => (st, [errLine mailboxLockedMsg])
    else
      ({ st with engine := { st.engine with pendingUser := none } },
        [errLine "authentication failed"])

/-- Reply lines of an unnumbered LIST: one `n size` line per entry,
numbered from `n` upward. -/
def listLines : List Nat → Nat → List String
  | [], _ => []
  | s :: rest, n => (toString n ++ " " ++ toString s) :: listLines rest (n + 1)

/-- Reply lines of an unnumbered UIDL: one `n uid` line per message whose
UID computation succeeds (in this program the sha1 call always raises, so
every message is skipped). -/
def uidlLines : List Message → Nat → List String
  | [], _ => []
  | m :: rest, n =>
    (match hashlibSha1 (.str m.content) with
     | .ok d => [toString n ++ " " ++ hexdigest d]
     | .error _ => []) ++ uidlLines rest (n + 1)

/-- Split a command line into words, as `case-insensitive verb,
space-separated arguments` of §4.1. -/
def parseWords (line : String) : List String :=
  ((stripCRLF line).splitOn " ").filter (fun w => w ≠ "")

/-- Modelled from the spec (§4.1): USER stages the candidate username. -/
def handleUser (st : PState) (args : List String) : PState × List String :=
  match args with
  | [u] =>
    ({ st with engine := { st.engine with pendingUser := some u } },
      [okLine "name accepted"])
  | _ => (st, [errLine "syntax"])

/-- Modelled from the spec (§4.1): QUIT from AUTHORIZATION closes with no
commit. -/
def handleQuitAuth (st : PState) : PState × List String :=
  ({ st with engine := { st.engine with state := .closed } }, [okLine "bye"])

/-- Modelled from the spec (§6): STAT replies with message count and total
size, read through the store's size listing. -/
def handleStat (st : PState) : PState × List String :=
  (st, [okLine (toString st.mailbox.sizes.length ++ " " ++ toString st.mailbox.sizes.sum)])

/-- Modelled from the spec (§4.1/§6): LIST, either the framed full listing
or a single size obtained from the store (protocol numbers are 1-based,
the store API is 0-based). -/
def handleList (st : PState) (args : List String) : PState × List String :=
  match args with
  | [] =>
    (st, [okLine (toString st.mailbox.sizes.length ++ " messages")] ++
      listLines st.mailbox.sizes 1 ++ ["."])
  | [a] =>
    match a.toNat? with
    | some n =>
      if n = 0 then (st, [errLine "bad message number"])
      else
        match (st.mailbox.listMessagesAt ((n : Int) - 1)).ret with
        | .ok s => (st, [okLine (toString n ++ " " ++ toString s)])
        | .error _ => (st, [errLine "no such message"])
    | none => (st, [errLine "bad message number"])
  | _ => (st, [errLine "syntax"])

/-- Modelled from the spec (§4.1/§6): RETR fetches a message stream from
the store and frames it; a store exception becomes a failure reply. -/
def handleRetr (st : PState) (args : List String) : PState × List String :=
  match args with
  | [a] =>
    match a.toNat? with
    | some n =>
      if n = 0 then (st, [errLine "bad message number"])
      else
        match (st.mailbox.getMessage ((n : Int) - 1)).ret with
        | .ok c => (st, [okLine "message follows", c, "."])
        | .error _ => (st, [errLine "no such message"])
    | none => (st, [errLine "bad message number"])
  | _ => (st, [errLine "syntax"])

/-- Modelled from the spec (§4.1/§6): DELE stages one deletion through the
store; on success the mailbox state and fired events are taken over. -/
def handleDele (st : PState) (args : List String) : PState × List String :=
  match args with
  | [a] =>
    match a.toNat? with
    | some n =>
      if n = 0 then (st, [errLine "bad message number"])
      else
        let e := st.mailbox.deleteMessage ((n : Int) - 1)
        match e.ret with
        | .ok _ =>
          ({ st with mailbox := e.mbox, events := st.events ++ e.events },
            [okLine "message deleted"])
        | .error _ => (st, [errLine "no such message"])
    | none => (st, [errLine "bad message number"])
  | _ => (st, [errLine "syntax"])

/-- Modelled from the spec (§6): NOOP acknowledges and does nothing. -/
def handleNoop (st : PState) : PState × List String :=
  (st, [okLine ""])

/-- Modelled from the spec (§4.1): RSET clears every staged deletion and
keeps the lock.  The spec's undelete(all) is used because the source's
undeleteMessages demands an index and cannot serve this call. -/
def handleRset (st : PState) : PState × List String :=
  ({ st with mailbox := st.mailbox.undeleteAll,
             events := st.events ++ [.mailboxChange] },
    [okLine "reset"])

/-- Modelled from the spec (§4.1/§6): UIDL, framed full listing or a
single UID from the store. -/
def handleUidl (st : PState) (args : List String) : PState × List String :=
  match args with
  | [] =>
    (st, [okLine "uid listing"] ++ uidlLines st.mailbox.messages 1 ++ ["."])
  | [a] =>
    match a.toNat? with
    | some n =>
      if n = 0 then (st, [errLine "bad message number"])
      else
        match (st.mailbox.getUidl ((n : Int) - 1)).ret with
        | .ok u => (st, [okLine (toString n ++ " " ++ u)])
        | .error _ => (st, [errLine "no such message"])
    | none => (st, [errLine "bad message number"])
  | _ => (st, [errLine "syntax"])

/-- Modelled from the spec (§6): TOP n k, framed like RETR. -/
def handleTop (st : PState) (args : List String) : PState × List String :=
  match args with
  | [a, b] =>
    match a.toNat?, b.toNat? with
    | some n, some _ =>
      if n = 0 then (st, [errLine "bad message number"])
      else
        match (st.mailbox.getMessage ((n : Int) - 1)).ret with
        | .ok c => (st, [okLine "top of message follows", c, "."])
        | .error _ => (st, [errLine "no such message"])
    | _, _ => (st, [errLine "bad message number"])
  | _ => (st, [errLine "syntax"])

/-- Modelled from the spec (§4.1): QUIT from TRANSACTION commits through
sync, releases the lock, and closes. -/
def handleQuitTrans (st : PState) : PState × List String :=
  let e := st.mailbox.sync
  ({ st with mailbox := e.mbox,
             lock := releaseLock st.lock st.engine.sid,
             engine := { st.engine with state := .closed },
             events := st.events ++ e.events },
    [okLine "bye"])

/-- Modelled from the spec (§4.1/§6): one dispatch step of the protocol
state machine.  It consumes one parsed command in the current session
state, updates mailbox, lock and engine through the per-command handlers,
and returns the ordered reply lines to transmit. -/
def step (creds : String × String) (st : PState) (line : String) :
    PState × List String :=
  match st.engine.state, parseWords line with
  | .authorization, verb :: args =>
    if verb.toUpper = "USER" then handleUser st args
    else if verb.toUpper = "PASS" then
      match args with
      | [p] => handlePass creds st p
      | _ => (st, [errLine "syntax"])
    else if verb.toUpper = "QUIT" then handleQuitAuth st
    else (st, [errLine "invalid command"])
  | .transaction, verb :: args =>
    if verb.toUpper = "STAT" then handleStat st
    else if verb.toUpper = "LIST" then handleList st args
    else if verb.toUpper = "RETR" then handleRetr st args
    else if verb.toUpper = "DELE" then handleDele st args
    else if verb.toUpper = "NOOP" then handleNoop st
    else if verb.toUpper = "RSET" then handleRset st
    else if verb.toUpper = "UIDL" then handleUidl st args
    else if verb.toUpper = "TOP" then handleTop st args
    else if verb.toUpper = "QUIT" then handleQuitTrans st
    else (st, [errLine "invalid command"])
  | _, _ => (st, [errLine "invalid"])

/-- Modelled from the spec: the base-class line handler — dispatch the
command, then transmit every reply line through the sendLine wrapper (so
each outgoing line is traced right before it is written). -/
def POP3_lineReceived (creds : String × String) (st : PState) (line : String) : PState :=
  let p := step creds st line
  sendLines p.1 p.2

/-- The overridden lineReceived of POP3Server: record the inbound line in
the trace first, then hand the line to the base class. -/
def lineReceived (creds : String × String) (st : PState) (line : String) : PState :=
  POP3_lineReceived creds (incoming_line st line) line

/-! ### Helper lemmas -/

/-- The accumulator loop of sync computes the filter of the non-deleted
messages, in order, appended to the accumulator. -/
theorem syncKeep_eq_filter (l acc : List Message) :
    syncKeep acc l = acc ++ l.filter (fun m => !m.deleted) := by
  induction l generalizing acc with
  | nil => simp [syncKeep]
  | cons m rest ih =>
    by_cases h : m.deleted = true <;>
      simp [syncKeep, h, ih, List.filter_cons]

/-- Setting a list position to the value it already holds is the
identity. -/
theorem set_get?_self (l : List Message) (j : Nat) (m : Message)
    (h : l[j]? = some m) : l.set j m = l := by
  induction l generalizing j with
  | nil => simp at h
  | cons a rest ih =>
    cases j with
    | zero => simp_all
    | succ k =>
      simp only [List.getElem?_cons_succ] at h
      simp [List.set, ih k h]

/-- A message already flagged deleted is unchanged by Message.delete. -/
theorem delete_of_deleted (m : Message) (h : m.deleted = true) :
    m.delete = m := by
  cases m
  simp_all [Message.delete]

/-- pyIndex fails below `-len`. -/
theorem pyIndex_low (len : Nat) (i : Int) (h : i < -(len : Int)) :
    pyIndex len i = .error .indexError := by
  have hi : i < 0 := by omega
  simp [pyIndex, hi]
  omega

/-- pyIndex succeeds on the whole Python-valid range `-len ≤ i < len`,
resolving to a position below `len`. -/
theorem pyIndex_ok (len : Nat) (i : Int) (h0 : -(len : Int) ≤ i)
    (h1 : i < (len : Int)) : ∃ j, pyIndex len i = .ok j ∧ j < len := by
  by_cases hi : i < 0
  · have hc : 0 ≤ i + (len : Int) ∧ i + (len : Int) < (len : Int) := by omega
    exact ⟨(i + (len : Int)).toNat, by simp [pyIndex, hi, hc], by omega⟩
  · have hc : 0 ≤ i ∧ i < (len : Int) := by omega
    exact ⟨i.toNat, by simp [pyIndex, hi, hc], by omega⟩

/-- The effect of one traced send: the trace gets the stripped line with
the server prefix, the wire gets the raw line, and nothing else moves. -/
theorem sendLine_spec (st : PState) (l : String) :
    (sendLine st l).log = st.log ++ ["S: " ++ stripCRLF l] ∧
    (sendLine st l).wire = st.wire ++ [l] ∧
    (sendLine st l).mailbox = st.mailbox ∧
    (sendLine st l).lock = st.lock ∧
    (sendLine st l).engine = st.engine :=
  ⟨rfl, rfl, rfl, rfl, rfl⟩

/-- The effect of a traced multi-line reply: the trace extends by exactly
the stripped reply lines, in order, and the wire by the raw reply lines;
mailbox, lock and engine are untouched. -/
theorem sendLines_spec (ls : List String) (st : PState) :
    (sendLines st ls).log = st.log ++ ls.map (fun l => "S: " ++ stripCRLF l) ∧
    (sendLines st ls).wire = st.wire ++ ls ∧
    (sendLines st ls).mailbox = st.mailbox ∧
    (sendLines st ls).lock = st.lock ∧
    (sendLines st ls).engine = st.engine := by
  induction ls generalizing st with
  | nil => simp [sendLines]
  | cons l rest ih =>
    have h := ih (sendLine st l)
    simp only [sendLines, List.foldl_cons] at h ⊢
    refine ⟨?_, ?_, ?_, ?_, ?_⟩
    · rw [h.1]; simp [sendLine, outgoing_line, transportWrite]
    · rw [h.2.1]; simp [sendLine, outgoing_line, transportWrite]
    · rw [h.2.2.1]; rfl
    · rw [h.2.2.2.1]; rfl
    · rw [h.2.2.2.2]; rfl

/-- handleUser leaves trace and wire alone. -/
theorem handleUser_frame (st : PState) (args : List String) :
    (handleUser st args).1.log = st.log ∧ (handleUser st args).1.wire = st.wire := by
  unfold handleUser; repeat' split
  all_goals exact ⟨rfl, rfl⟩

/-- handlePass leaves trace and wire alone. -/
theorem handlePass_frame (creds : String × String) (st : PState) (p : String) :
    (handlePass creds st p).1.log = st.log ∧ (handlePass creds st p).1.wire = st.wire := by
  unfold handlePass; repeat' split
  all_goals exact ⟨rfl, rfl⟩

/-- handleList leaves trace and wire alone. -/
theorem handleList_frame (st : PState) (args : List String) :
    (handleList st args).1.log = st.log ∧ (handleList st args).1.wire = st.wire := by
  unfold handleList; repeat' split
  all_goals exact ⟨rfl, rfl⟩

/-- handleRetr leaves trace and wire alone. -/
theorem handleRetr_frame (st : PState) (args : List String) :
    (handleRetr st args).1.log = st.log ∧ (handleRetr st args).1.wire = st.wire := by
  unfold handleRetr; repeat' split
  all_goals exact ⟨rfl, rfl⟩

/-- handleDele leaves trace and wire alone. -/
theorem handleDele_frame (st : PState) (args : List String) :
    (handleDele st args).1.log = st.log ∧ (handleDele st args).1.wire = st.wire := by
  unfold handleDele; dsimp only; repeat' split
  all_goals exact ⟨rfl, rfl⟩

/-- handleUidl leaves trace and wire alone. -/
theorem handleUidl_frame (st : PState) (args : List String) :
    (handleUidl st args).1.log = st.log ∧ (handleUidl st args).1.wire = st.wire := by
  unfold handleUidl; repeat' split
  all_goals exact ⟨rfl, rfl⟩

/-- handleTop leaves trace and wire alone. -/
theorem handleTop_frame (st : PState) (args : List String) :
    (handleTop st args).1.log = st.log ∧ (handleTop st args).1.wire = st.wire := by
  unfold handleTop; repeat' split
  all_goals exact ⟨rfl, rfl⟩

set_option maxHeartbeats 1000000 in
/-- The dispatch step never touches the trace or the wire: all recording
and transmission happen in the wrappers around it. -/
theorem step_frame (creds : String × String) (st : PState) (line : String) :
    (step creds st line).1.log = st.log ∧ (step creds st line).1.wire = st.wire := by
  unfold step
  repeat' split
  all_goals
    first
    | exact ⟨rfl, rfl⟩
    | exact handleUser_frame st _
    | exact handlePass_frame creds st _
    | exact handleList_frame st _
    | exact handleRetr_frame st _
    | exact handleDele_frame st _
    | exact handleUidl_frame st _
    | exact handleTop_frame st _

/-- Two mailboxes with the same message list are equal. -/
theorem mailbox_eq_of_messages {a b : Mailbox} (h : a.messages = b.messages) :
    a = b := by
  cases a; cases b; simpa using h

/-- The retained messages and the flagged messages partition the original
length. -/
theorem filter_length_add_countP (l : List Message) :
    (l.filter (fun m => !m.deleted)).length + l.countP (fun m => m.deleted) = l.length := by
  induction l with
  | nil => simp
  | cons m rest ih =>
    by_cases h : m.deleted = true <;>
      simp [List.filter_cons, List.countP_cons, h] <;> omega

/-! ### Concrete fixtures used by witnesses and counterexamples -/

/-- A three-byte message, not deleted. -/
def msg1 : Message := { content := "abc", label := none, deleted := false }

/-- The same three-byte message, flagged deleted. -/
def msg1d : Message := { content := "abc", label := none, deleted := true }

/-- A five-byte message, not deleted. -/
def msg2 : Message := { content := "hello", label := none, deleted := false }

/-- The same five-byte message, flagged deleted. -/
def msg2d : Message := { content := "hello", label := none, deleted := true }

/-- A world in which session 1 holds the mailbox lock and session 2 has
staged the correct username in AUTHORIZATION. -/
def stLock : PState :=
  { mailbox := ⟨[]⟩, lock := some 1,
    engine := { sid := 2, state := .authorization, pendingUser := some "user" },
    log := [], wire := [], events := [] }

/-! ### Claims -/

/-- Claim C1: the spec's undelete operation is meant to clear pendingDelete
on every message, but the source's undeleteMessages takes an index and
clears only that one message.  Evaluated at the failing input — a mailbox
with two flagged messages — a single undelete call leaves the second
message flagged, while the spec-modelled undeleteAll clears both. -/
theorem undelete_clears_single_message_only :
    ((⟨[msg1d, msg2d]⟩ : Mailbox).undeleteMessages 0).ret = .ok ()
  ∧ ((⟨[msg1d, msg2d]⟩ : Mailbox).undeleteMessages 0).mbox.messages = [msg1, msg2d]
  ∧ msg2d.deleted = true
  ∧ (Mailbox.undeleteAll ⟨[msg1d, msg2d]⟩).messages = [msg1, msg2] := by
  decide

/-- Claim C2: sync removes exactly the flagged messages: the surviving list
is the in-order filter of the unflagged ones (so contents are unchanged and
positions — the 1-based numbering is positional — are compacted from 1),
every unflagged message survives, every survivor was present and unflagged,
the survivors form a sublist of the original, the removed count is the
flagged count, and the mailbox-changed event fires. -/
theorem sync_removes_exactly_flagged (mb : Mailbox) :
    ((mb.sync).mbox.messages = mb.messages.filter (fun m => !m.deleted))
  ∧ (mb.sync).events = [Event.mailboxChange]
  ∧ (∀ m, m ∈ mb.messages → m.deleted = false → m ∈ (mb.sync).mbox.messages)
  ∧ (∀ m, m ∈ (mb.sync).mbox.messages → m ∈ mb.messages ∧ m.deleted = false)
  ∧ List.Sublist (mb.sync).mbox.messages mb.messages
  ∧ (mb.sync).mbox.messages.length + mb.messages.countP (fun m => m.deleted) =
      mb.messages.length := by
  have hf : (mb.sync).mbox.messages = mb.messages.filter (fun m => !m.deleted) := by
    simp [Mailbox.sync, syncKeep_eq_filter]
  refine ⟨hf, rfl, ?_, ?_, ?_, ?_⟩
  · intro m hm hd
    rw [hf]
    exact List.mem_filter.mpr ⟨hm, by simp [hd]⟩
  · intro m hm
    rw [hf] at hm
    obtain ⟨h1, h2⟩ := List.mem_filter.mp hm
    exact ⟨h1, by simpa using h2⟩
  · rw [hf]; exact List.filter_sublist _
  · rw [hf]; exact filter_length_add_countP mb.messages

/-- Witness for C2 at a concrete mailbox: the unflagged message survives
the sync of a mailbox holding one unflagged and one flagged message. -/
theorem sync_removes_exactly_flagged_witness :
    msg1 ∈ ((⟨[msg1, msg2d]⟩ : Mailbox).sync).mbox.messages :=
  (sync_removes_exactly_flagged ⟨[msg1, msg2d]⟩).2.2.1 msg1 (by decide) (by decide)

/-- Counterexample to claim C3 as stated: list() does not exclude deleted
messages.  A mailbox holding exactly one flagged message still gets one
size entry from listMessages, although its non-deleted count is zero. -/
theorem list_counts_deleted_cex :
    ((⟨[msg1d]⟩ : Mailbox).listMessages).ret = .ok [3]
  ∧ (⟨[msg1d]⟩ : Mailbox).messages.countP (fun m => !m.deleted) = 0
  ∧ msg1d.deleted = true := by
  decide

/-- Claim C3 as amended: list() with no index returns one size entry per
stored message — deleted or not — and each entry is the corresponding
message's content length, in order. -/
theorem list_sizes_every_message (mb : Mailbox) :
    (mb.listMessages).ret = .ok mb.sizes
  ∧ mb.sizes.length = mb.messages.length
  ∧ (∀ (j : Nat) (m : Message), mb.messages[j]? = some m → mb.sizes[j]? = some m.content.length) := by
  refine ⟨rfl, by simp [Mailbox.sizes], ?_⟩
  intro j m hm
  simp [Mailbox.sizes, List.getElem?_map, hm]

/-- Witness for the amended C3: in a two-message mailbox the second
(deleted) message's size entry is present and correct. -/
theorem list_sizes_every_message_witness :
    (⟨[msg1, msg2d]⟩ : Mailbox).sizes[1]? = some 5 :=
  (list_sizes_every_message ⟨[msg1, msg2d]⟩).2.2 1 msg2d (by decide)

/-- Counterexample to claim C4 as stated: on an in-range message flagged
for deletion, list(n) returns its size instead of failing and delete(n)
succeeds again instead of failing. -/
theorem flagged_target_ops_cex :
    ((⟨[msg1d]⟩ : Mailbox).listMessagesAt 0).ret = .ok 3
  ∧ ((⟨[msg1d]⟩ : Mailbox).deleteMessage 0).ret = .ok ()
  ∧ msg1d.deleted = true := by
  decide

/-- Claim C4 as amended: no single-message operation checks the
pendingDelete flag.  For an in-range flagged target, list(n) returns the
size, delete(n) succeeds again and leaves the mailbox unchanged (the flag
is already set); get(n) and uid(n) do fail — but they fail on every input,
from the Python 3 porting slips (StringIO attribute lookup, sha1 on str),
not from a flag check. -/
theorem flagged_target_ops (mb : Mailbox) (i : Int) (j : Nat) (m : Message)
    (hub : i < (mb.messages.length : Int))
    (hj : pyIndex mb.messages.length i = .ok j)
    (hm : mb.messages[j]? = some m)
    (hd : m.deleted = true) :
    (mb.listMessagesAt i).ret = .ok m.content.length
  ∧ (mb.deleteMessage i).ret = .ok ()
  ∧ (mb.deleteMessage i).mbox = mb
  ∧ (mb.getMessage i).ret = .error .attributeError
  ∧ (mb.getUidl i).ret = .error .typeError := by
  have hg : ¬ ((mb.messages.length : Int) ≤ i) := by omega
  have hset : mb.messages.set j m.delete = mb.messages := by
    rw [delete_of_deleted m hd]
    exact set_get?_self mb.messages j m hm
  refine ⟨?_, ?_, ?_, ?_, ?_⟩
  · simp [Mailbox.listMessagesAt, hg, hj, hm]
  · simp [Mailbox.deleteMessage, hg, hj, hm]
  · apply mailbox_eq_of_messages
    simp [Mailbox.deleteMessage, hg, hj, hm, hset]
  · simp [Mailbox.getMessage, hg]
  · simp [Mailbox.getUidl, hg, hj, hm, hashlibSha1]

/-- Witness for the amended C4 at a concrete flagged message. -/
theorem flagged_target_ops_witness :
    ((⟨[msg1d]⟩ : Mailbox).getUidl 0).ret = .error .typeError
  ∧ ((⟨[msg1d]⟩ : Mailbox).deleteMessage 0).mbox = (⟨[msg1d]⟩ : Mailbox) := by
  have h := flagged_target_ops ⟨[msg1d]⟩ 0 0 msg1d (by decide) (by decide)
    (by decide) (by decide)
  exact ⟨h.2.2.2.2, h.2.2.1⟩

/-- Claim C5: the mailbox lock is exclusive.  Modelled from the spec
(locking lives in the external protocol library, not in the source file):
while the lock is held by one session, an authenticated PASS by a session
with a different identifier fails with the mailbox-locked error, changes
nothing — the replying session stays in AUTHORIZATION, the lock keeps its
holder, and the mailbox (hence every staged deletion flag) is untouched. -/
theorem pass_rejected_when_locked (creds : String × String) (st : PState)
    (pw u : String) (h : Nat)
    (hlock : st.lock = some h) (hneq : h ≠ st.engine.sid)
    (hst : st.engine.state = .authorization)
    (huser : st.engine.pendingUser = some u)
    (hauth : verify creds u pw = true) :
    acquireLock st.lock st.engine.sid = .error .mailboxLocked
  ∧ handlePass creds st pw = (st, [errLine mailboxLockedMsg])
  ∧ (handlePass creds st pw).1.engine.state = SessionState.authorization
  ∧ (handlePass creds st pw).1.lock = some h
  ∧ (handlePass creds st pw).1.mailbox = st.mailbox := by
  have hacq : acquireLock st.lock st.engine.sid = .error .mailboxLocked := by
    simp [acquireLock, hlock, hneq]
  have hp : handlePass creds st pw = (st, [errLine mailboxLockedMsg]) := by
    unfold handlePass
    rw [huser]
    simp [hauth, hacq]
  exact ⟨hacq, hp, by rw [hp]; exact hst, by rw [hp]; exact hlock, by rw [hp]⟩

/-- Witness for C5: with the lock held by session 1, a correct PASS from
session 2 is answered with the mailbox-locked failure and nothing moves. -/
theorem pass_rejected_when_locked_witness :
    handlePass ("user", "pass") stLock "pass" = (stLock, [errLine mailboxLockedMsg]) :=
  (pass_rejected_when_locked ("user", "pass") stLock "pass" "user" 1 rfl
    (by decide) rfl rfl (by decide)).2.1

/-- Counterexample to claim C6 as stated: a negative index does not fail.
On a one-message mailbox, index -1 wraps to the last message (Python list
semantics) and both list and delete succeed there. -/
theorem negative_index_cex :
    ((⟨[msg1]⟩ : Mailbox).listMessagesAt (-1)).ret = .ok 3
  ∧ ((⟨[msg1]⟩ : Mailbox).deleteMessage (-1)).ret = .ok () := by
  decide

/-- Claim C6 as amended: the index-taking operations validate only the
upper bound explicitly (`index >= count` raises ValueError); below that,
Python subscripting accepts the whole range `-count ≤ i < count` (negative
values count from the end) and raises IndexError only below `-count` —
where getMessage instead raises its unconditional AttributeError first. -/
theorem index_validation (mb : Mailbox) (i : Int) :
    (((mb.messages.length : Int) ≤ i) →
      (mb.listMessagesAt i).ret = .error .valueError
    ∧ (mb.getMessage i).ret = .error .valueError
    ∧ (mb.getUidl i).ret = .error .valueError
    ∧ (mb.deleteMessage i).ret = .error .valueError)
  ∧ ((i < -(mb.messages.length : Int)) →
      (mb.listMessagesAt i).ret = .error .indexError
    ∧ (mb.getMessage i).ret = .error .attributeError
    ∧ (mb.getUidl i).ret = .error .indexError
    ∧ (mb.deleteMessage i).ret = .error .indexError)
  ∧ ((-(mb.messages.length : Int) ≤ i ∧ i < (mb.messages.length : Int)) →
      (∃ s, (mb.listMessagesAt i).ret = .ok s)
    ∧ (mb.deleteMessage i).ret = .ok ()) := by
  refine ⟨?_, ?_, ?_⟩
  · intro hg
    refine ⟨?_, ?_, ?_, ?_⟩ <;>
      simp [Mailbox.listMessagesAt, Mailbox.getMessage, Mailbox.getUidl,
        Mailbox.deleteMessage, hg]
  · intro h
    have hg : ¬ ((mb.messages.length : Int) ≤ i) := by omega
    have hp := pyIndex_low mb.messages.length i h
    refine ⟨?_, ?_, ?_, ?_⟩ <;>
      simp [Mailbox.listMessagesAt, Mailbox.getMessage, Mailbox.getUidl,
        Mailbox.deleteMessage, hg, hp]
  · rintro ⟨h0, h1⟩
    have hg : ¬ ((mb.messages.length : Int) ≤ i) := by omega
    obtain ⟨j, hj, hjlt⟩ := pyIndex_ok mb.messages.length i h0 h1
    have hm : ∃ m, mb.messages[j]? = some m := by
      cases hmm : mb.messages[j]? with
      | some m => exact ⟨m, rfl⟩
      | none => rw [List.getElem?_eq_none_iff] at hmm; omega
    obtain ⟨m, hm⟩ := hm
    constructor
    · exact ⟨m.content.length, by simp [Mailbox.listMessagesAt, hg, hj, hm]⟩
    · simp [Mailbox.deleteMessage, hg, hj, hm]

/-- Witness for the amended C6 at concrete indices of a one-message
mailbox: 1 is out of range above, -2 is out of range below, and 0 is
accepted. -/
theorem index_validation_witness :
    ((⟨[msg1]⟩ : Mailbox).listMessagesAt 1).ret = .error .valueError
  ∧ ((⟨[msg1]⟩ : Mailbox).getUidl (-2)).ret = .error .indexError
  ∧ ((⟨[msg1]⟩ : Mailbox).deleteMessage 0).ret = .ok () := by
  refine ⟨((index_validation ⟨[msg1]⟩ 1).1 (by decide)).1, ?_, ?_⟩
  · exact ((index_validation ⟨[msg1]⟩ (-2)).2.1 (by decide)).2.2.1
  · exact ((index_validation ⟨[msg1]⟩ 0).2.2 (by decide)).2

set_option maxRecDepth 40000 in
/-- Claim C7: uid(n) is meant to be the SHA-1 of the content rendered as
hex, but the source passes the `str` content straight to hashlib.sha1,
which in Python 3 raises TypeError on every call — evaluated here at the
failing input (any one-message mailbox, index 0).  The second conjunct
anchors the intended computation: on properly encoded bytes the model
produces the standard SHA-1 hex digest. -/
theorem getUidl_raises_typeerror :
    ((⟨[msg1]⟩ : Mailbox).getUidl 0).ret = .error .typeError
  ∧ hexdigest (sha1Bytes ("abc".toList.map Char.toNat)) =
      "a9993e364706816aba3e25717850c26c9cd0d89d" := by
  exact ⟨by decide, by decide⟩

/-- Claim C8: every line is traced in wire order.  The inbound line is
recorded before the dispatch runs (the wrapper is literally record before
base-class call, and recording touches nothing but the trace), and every
outbound line written during the dispatch appears in the trace, in
transmission order, right after the inbound record — so the final trace is
the old trace, then the client line, then exactly the server lines that
went out on the wire. -/
theorem trace_records_wire_order (creds : String × String) (st : PState) (line : String) :
    lineReceived creds st line = POP3_lineReceived creds (incoming_line st line) line
  ∧ (incoming_line st line).mailbox = st.mailbox
  ∧ (incoming_line st line).lock = st.lock
  ∧ (incoming_line st line).engine = st.engine
  ∧ (incoming_line st line).wire = st.wire
  ∧ (incoming_line st line).log = st.log ++ ["C: " ++ stripCRLF line]
  ∧ (∃ out, (lineReceived creds st line).wire = st.wire ++ out)
  ∧ (lineReceived creds st line).log =
      st.log ++ ["C: " ++ stripCRLF line] ++
        ((lineReceived creds st line).wire.drop st.wire.length).map
          (fun l => "S: " ++ stripCRLF l) := by
  have hstep := step_frame creds (incoming_line st line) line
  have hsend := sendLines_spec (step creds (incoming_line st line) line).2
    (step creds (incoming_line st line) line).1
  have hwire : (lineReceived creds st line).wire =
      st.wire ++ (step creds (incoming_line st line) line).2 := by
    show (sendLines _ _).wire = _
    rw [hsend.2.1, hstep.2]
    rfl
  refine ⟨rfl, rfl, rfl, rfl, rfl, rfl, ⟨_, hwire⟩, ?_⟩
  have hlog : (lineReceived creds st line).log =
      (st.log ++ ["C: " ++ stripCRLF line]) ++
        ((step creds (incoming_line st line) line).2).map
          (fun l => "S: " ++ stripCRLF l) := by
    show (sendLines _ _).log = _
    rw [hsend.1, hstep.1]
    simp [incoming_line, List.append_assoc]
  rw [hlog, hwire, List.drop_left]

/-- Claim C9: right after sync no surviving message is flagged, and a
second sync is a no-op: syncing twice equals syncing once. -/
theorem sync_idempotent (mb : Mailbox) :
    (∀ m, m ∈ (mb.sync).mbox.messages → m.deleted = false)
  ∧ ((mb.sync).mbox.sync).mbox = (mb.sync).mbox := by
  have hf : ∀ x : Mailbox, (x.sync).mbox.messages = x.messages.filter (fun m => !m.deleted) :=
    fun x => by simp [Mailbox.sync, syncKeep_eq_filter]
  constructor
  · intro m hm
    rw [hf] at hm
    simpa using (List.mem_filter.mp hm).2
  · apply mailbox_eq_of_messages
    rw [hf, hf]
    exact List.filter_eq_self.mpr (fun a ha => (List.mem_filter.mp ha).2)

/-- Witness for C9 at a concrete mailbox: the survivor of a sync is
unflagged. -/
theorem sync_idempotent_witness : msg1.deleted = false :=
  (sync_idempotent ⟨[msg1, msg2d]⟩).1 msg1 (by decide)

/-- Claim C10: a successful deleteMessage fires exactly the
mailbox-changed event (a failing one fires nothing and changes nothing),
while the read operations — listMessages in both forms, getMessage,
getUidl — fire no event and leave the mailbox exactly as it was. -/
theorem delete_emits_event_reads_pure (mb : Mailbox) (i : Int) :
    ((mb.deleteMessage i).ret = .ok () → (mb.deleteMessage i).events = [Event.mailboxChange])
  ∧ ((∃ e, (mb.deleteMessage i).ret = .error e) →
      (mb.deleteMessage i).events = [] ∧ (mb.deleteMessage i).mbox = mb)
  ∧ (mb.listMessages).events = [] ∧ (mb.listMessages).mbox = mb
  ∧ (mb.listMessagesAt i).events = [] ∧ (mb.listMessagesAt i).mbox = mb
  ∧ (mb.getMessage i).events = [] ∧ (mb.getMessage i).mbox = mb
  ∧ (mb.getUidl i).events = [] ∧ (mb.getUidl i).mbox = mb := by
  refine ⟨?_, ?_, rfl, rfl, ?_, ?_, ?_, ?_, ?_, ?_⟩
  · unfold Mailbox.deleteMessage
    (repeat' split) <;> simp
  · unfold Mailbox.deleteMessage
    (repeat' split) <;> simp
  · unfold Mailbox.listMessagesAt
    (repeat' split) <;> rfl
  · unfold Mailbox.listMessagesAt
    (repeat' split) <;> rfl
  · unfold Mailbox.getMessage
    (repeat' split) <;> rfl
  · unfold Mailbox.getMessage
    (repeat' split) <;> rfl
  · unfold Mailbox.getUidl
    (repeat' split) <;> rfl
  · unfold Mailbox.getUidl
    (repeat' split) <;> rfl

/-- Witness for C10: a successful concrete delete fires exactly the
mailbox-changed event. -/
theorem delete_emits_event_reads_pure_witness :
    ((⟨[msg1]⟩ : Mailbox).deleteMessage 0).events = [Event.mailboxChange] :=
  (delete_emits_event_reads_pure ⟨[msg1]⟩ 0).1 (by decide)

end TinyPop3
